import Mathlib

/-!
Shallow embedding of the FIO storage-performance monitor
(`fio-collector/fio_monitor.py` and `fio_analyzer.py`).

Python dictionaries are modelled as association lists of string keys with
Python's semantics: `d[k] = v` updates the value in place when the key is
present (keeping its position) and appends otherwise; `d.get(k, default)`
is a lookup with default.  JSON numbers are modelled as rationals so that
the division by 1000 performed by the code is exact arithmetic.
Optional JSON fields are `Option` values; a missing sub-dictionary is the
`none` case of the corresponding `Option` field.
-/

namespace FioMonitor

/-- Python `dict` lookup returning `Option`: first binding of the key wins. -/
def dictGet? {α : Type} (l : List (String × α)) (k : String) : Option α :=
  match l with
  | [] => none
  | (k', v) :: rest => if k' = k then some v else dictGet? rest k

/-- Python `dict.get(k, default)`. -/
def dictGetD {α : Type} (l : List (String × α)) (k : String) (d : α) : α :=
  (dictGet? l k).getD d

/-- Python `d[k] = v`: update in place when the key exists (keeping its
position in insertion order), append otherwise. -/
def dictInsert {α : Type} (l : List (String × α)) (k : String) (v : α) :
    List (String × α) :=
  match l with
  | [] => [(k, v)]
  | (k', v') :: rest =>
    if k' = k then (k, v) :: rest else (k', v') :: dictInsert rest k v

/-- Scalar configuration value, stringified with Python `str()` when placed
on the command line. -/
inductive Scalar where
  | str (s : String)
  | int (n : Int)
deriving DecidableEq

/-- Python `str()` applied to a scalar parameter value. -/
def Scalar.toStr : Scalar → String
  | .str s => s
  | .int n => toString n

/-- One named test configuration: `{"name": ..., "parameters": {...}}`. -/
structure TestConfig where
  name : String
  parameters : List (String × Scalar)
deriving DecidableEq

/-- The `lat_ns` sub-dictionary of a job's read/write statistics; every
field may be absent. -/
structure LatNsDict where
  min? : Option ℚ
  max? : Option ℚ
  mean? : Option ℚ
deriving DecidableEq

/-- The `lat_ns` value used when the key is absent: Python's empty dict. -/
def emptyLatNsDict : LatNsDict := ⟨none, none, none⟩

/-- The `clat_ns` sub-dictionary; its `percentile` table may be absent. -/
structure ClatNsDict where
  percentile? : Option (List (String × ℚ))
deriving DecidableEq

/-- The `clat_ns` value used when the key is absent. -/
def emptyClatNsDict : ClatNsDict := ⟨none⟩

/-- A job's `read` or `write` statistics object as produced by the tool;
every field may be absent. -/
structure RWStats where
  iops? : Option ℚ
  bw_bytes? : Option ℚ
  bw_kbps? : Option ℚ
  lat_ns? : Option LatNsDict
  clat_ns? : Option ClatNsDict
deriving DecidableEq

/-- The `read`/`write` value used when the key is absent. -/
def emptyRWStats : RWStats := ⟨none, none, none, none, none⟩

/-- One entry of the tool's `jobs` list. -/
structure Job where
  jobname? : Option String
  read? : Option RWStats
  write? : Option RWStats
  usr_cpu? : Option ℚ
  sys_cpu? : Option ℚ
deriving DecidableEq

/-- The parsed JSON document returned by the benchmarking tool:
`global options` and the `jobs` list, both possibly absent. -/
structure FioData where
  global_options? : Option (List (String × String))
  jobs? : Option (List Job)
deriving DecidableEq

/-- A min/max/mean latency triple (nanoseconds or microseconds). -/
structure LatTriple where
  min : ℚ
  max : ℚ
  mean : ℚ
deriving DecidableEq

/-- Embeds `FIOMonitor.convert_latency_to_us`: each of min, max, mean defaults to
0 when absent and is divided by 1000. -/
def convert_latency_to_us (latency_ns : LatNsDict) : LatTriple :=
  { min := latency_ns.min?.getD 0 / 1000
    max := latency_ns.max?.getD 0 / 1000
    mean := latency_ns.mean?.getD 0 / 1000 }

/-- The processed `read`/`write` sub-record of a job inside a TestResult. -/
structure SideResult where
  iops : ℚ
  bw_bytes : ℚ
  bw_kbps : ℚ
  latency_ns : LatTriple
  percentiles : List (String × ℚ)
  latency_us : LatTriple
deriving DecidableEq

/-- The processed per-job record stored in a TestResult. -/
structure JobResult where
  read : SideResult
  write : SideResult
  cpu : ℚ
deriving DecidableEq

/-- Processing of one side (`read` or `write`) of a job, following the body
of the loop in `FIOMonitor.process_fio_results`. -/
def processSide (stats : RWStats) : SideResult :=
  let lat := stats.lat_ns?.getD emptyLatNsDict
  { iops := stats.iops?.getD 0
    bw_bytes := stats.bw_bytes?.getD 0
    bw_kbps := stats.bw_kbps?.getD 0
    latency_ns :=
      { min := lat.min?.getD 0, max := lat.max?.getD 0, mean := lat.mean?.getD 0 }
    percentiles := (stats.clat_ns?.getD emptyClatNsDict).percentile?.getD []
    latency_us := convert_latency_to_us lat }

/-- Processing of one job: the `job_results` dictionary built by
`FIOMonitor.process_fio_results`. -/
def processJob (job : Job) : JobResult :=
  { read := processSide (job.read?.getD emptyRWStats)
    write := processSide (job.write?.getD emptyRWStats)
    cpu := job.usr_cpu?.getD 0 + job.sys_cpu?.getD 0 }

/-- A value stored under a key of a TestResult dictionary: the timestamp and
test name are strings, the echoed global options a string map, and every
other key holds a per-job record. -/
inductive ResultVal where
  | str (s : String)
  | opts (g : List (String × String))
  | job (j : JobResult)
deriving DecidableEq

/-- A TestResult is the Python dictionary built by
`FIOMonitor.process_fio_results`: metadata keys first, then one key per
job, all sharing a single namespace. -/
abbrev TestResult := List (String × ResultVal)

/-- Embeds `FIOMonitor.process_fio_results`: the fixed metadata entries followed by
one `results[job_name] = job_results` dictionary assignment per job, with
`jobname` defaulting to "unknown". -/
def process_fio_results (test_name : String) (now : String)
    (fio_data : FioData) : TestResult :=
  let base : TestResult :=
    [("timestamp", .str now),
     ("test_name", .str test_name),
     ("global_options", .opts (fio_data.global_options?.getD []))]
  (fio_data.jobs?.getD []).foldl
    (fun acc job => dictInsert acc (job.jobname?.getD "unknown")
      (.job (processJob job)))
    base

/-- The per-job metrics emitted by `FIOMonitor.extract_key_metrics` (and,
with different field names but the same formulas, by the analyzer's
time-series rows). -/
structure JobMetrics where
  read_iops : ℚ
  write_iops : ℚ
  read_latency_us_p95 : ℚ
  write_latency_us_p95 : ℚ
  read_bandwidth_kbps : ℚ
  write_bandwidth_kbps : ℚ
deriving DecidableEq

/-- Metrics of one job record, following `FIOMonitor.extract_key_metrics`:
the p95 latency is looked up by the literal key "95.000000", defaults to 0,
and is divided by 1000. -/
def jobMetrics (j : JobResult) : JobMetrics :=
  { read_iops := j.read.iops
    write_iops := j.write.iops
    read_latency_us_p95 := dictGetD j.read.percentiles "95.000000" 0 / 1000
    write_latency_us_p95 := dictGetD j.write.percentiles "95.000000" 0 / 1000
    read_bandwidth_kbps := j.read.bw_kbps
    write_bandwidth_kbps := j.write.bw_kbps }

/-- The three metadata keys skipped by `FIOMonitor.extract_key_metrics` and
by `FIOAnalyzer.create_timeseries_analysis`. -/
def metaKeys : List String := ["timestamp", "test_name", "global_options"]

/-- Embeds `FIOMonitor.extract_key_metrics`: iterate over the result dictionary,
skip the metadata keys, and emit the key metrics of every job record. -/
def extract_key_metrics (result : TestResult) : List (String × JobMetrics) :=
  result.filterMap fun kv =>
    if kv.1 ∈ metaKeys then none
    else match kv.2 with
      | .job j => some (kv.1, jobMetrics j)
      | _ => none

/-- The analyzer's flattening of one history record into table rows
(`FIOAnalyzer.create_timeseries_analysis`): the same three metadata keys
are skipped and the same six metric formulas are applied per job. -/
def timeseries_rows_of (result : TestResult) : List (String × JobMetrics) :=
  result.filterMap fun kv =>
    if kv.1 ∈ metaKeys then none
    else match kv.2 with
      | .job j =>
        some (kv.1,
          { read_iops := j.read.iops
            write_iops := j.write.iops
            read_latency_us_p95 := dictGetD j.read.percentiles "95.000000" 0 / 1000
            write_latency_us_p95 := dictGetD j.write.percentiles "95.000000" 0 / 1000
            read_bandwidth_kbps := j.read.bw_kbps
            write_bandwidth_kbps := j.write.bw_kbps })
      | _ => none

/-- Monitor state: the in-memory history list and the content of the
on-disk history file (`none` when the file has never been written). -/
structure MonitorState where
  history : List TestResult
  historyFile : Option (List TestResult)
deriving DecidableEq

/-- The state of a freshly constructed monitor: empty history, no file. -/
def initialState : MonitorState := ⟨[], none⟩

/-- Embeds `FIOMonitor.save_history`: serialize the full in-memory history to the
history file, overwriting prior content. -/
def save_history (s : MonitorState) : MonitorState :=
  { s with historyFile := some s.history }

/-- Embeds `FIOMonitor.save_results`: a no-op on an empty (falsy) result;
otherwise append to history and save the whole history. -/
def save_results (s : MonitorState) (results : TestResult) : MonitorState :=
  if results.isEmpty then s
  else save_history { s with history := s.history ++ [results] }

/-- Embeds `FIOAnalyzer.load_history`: an absent history file yields the empty
list, otherwise the file's parsed content. -/
def load_history (file : Option (List TestResult)) : List TestResult :=
  file.getD []

/-- Outcome of one benchmark subprocess invocation, as distinguished by the
try/except of `FIOMonitor.run_fio_test`. -/
inductive FioRunOutcome where
  | ok (data : FioData)
  | nonzeroExit
  | timedOut
  | badJson
  | unexpectedError
deriving DecidableEq

/-- Embeds `FIOMonitor.run_fio_test` after the subprocess boundary: a successful,
well-formed JSON outcome is normalized; every failure path returns `none`
instead of raising. -/
def run_fio_test (test_name : String) (now : String)
    (outcome : FioRunOutcome) : Option TestResult :=
  match outcome with
  | .ok data => some (process_fio_results test_name now data)
  | _ => none

/-- One cycle of `FIOMonitor.run_monitoring_cycle`: run every configured
test sequentially, saving each truthy result. -/
def run_cycle (s : MonitorState) (now : String)
    (tests : List (TestConfig × FioRunOutcome)) : MonitorState :=
  tests.foldl
    (fun st t =>
      match run_fio_test t.1.name now t.2 with
      | some r => if r.isEmpty then st else save_results st r
      | none => st)
    s

/-- The command line built by `FIOMonitor.run_fio_test`: `fio --name <name>`
followed by a `--<key> <value>` pair for every parameter except `name`. -/
def build_fio_cmd (config : TestConfig) : List String :=
  config.parameters.foldl
    (fun cmd kv =>
      if kv.1 ≠ "name" then cmd ++ ["--" ++ kv.1, kv.2.toStr] else cmd)
    ["fio", "--name", config.name]

/-- Modelled from the spec: the flag list the Invoker is required to emit,
one `--<key> <value>` pair per parameter other than `name`, in the
parameter mapping's iteration order. -/
def specFlagPairs : List (String × Scalar) → List String
  | [] => []
  | kv :: rest =>
    if kv.1 ≠ "name" then ("--" ++ kv.1) :: kv.2.toStr :: specFlagPairs rest
    else specFlagPairs rest

/-- The subprocess timeout of `FIOMonitor.run_fio_test`:
`parameters.get("runtime", 120) + 30`; adding 30 to a string runtime value
would raise in Python, modelled by `none`. -/
def fio_timeout (parameters : List (String × Scalar)) : Option Int :=
  match dictGetD parameters "runtime" (.int 120) with
  | .int n => some (n + 30)
  | .str _ => none

/-- The per-test aggregate of `FIOMonitor.aggregate_test_results`:
last run timestamp value, run count, and latest per-job key metrics. -/
structure TestSummary where
  last_run : Option ResultVal
  runs_count : Nat
  latest_metrics : List (String × JobMetrics)
deriving DecidableEq

/-- The report of `FIOMonitor.generate_report`. -/
structure Report where
  total_tests : Nat
  summary : List (String × TestSummary)
deriving DecidableEq

/-- The test-name filter of `FIOMonitor.generate_report`:
`r.get("test_name") == test_name` (false when the key is absent or holds a
non-string value). -/
def testNameMatches (r : TestResult) (test_name : String) : Bool :=
  match dictGet? r "test_name" with
  | some (.str s) => s = test_name
  | _ => false

/-- Embeds `FIOMonitor.aggregate_test_results` for a nonempty result list: the
last record in store order is the latest. -/
def aggregate_test_results (latest : TestResult) (trs : List TestResult) :
    TestSummary :=
  { last_run := dictGet? latest "timestamp"
    runs_count := trs.length
    latest_metrics := extract_key_metrics latest }

/-- Embeds `FIOMonitor.generate_report`: `none` on an empty history, otherwise a
report whose summary has one entry per configured test that has at least
one matching history record. -/
def generate_report (configs : List TestConfig) (history : List TestResult) :
    Option Report :=
  if history.isEmpty then none
  else some
    { total_tests := history.length
      summary := configs.foldl
        (fun acc cfg =>
          let trs := history.filter (fun r => testNameMatches r cfg.name)
          match trs.getLast? with
          | none => acc
          | some latest =>
            dictInsert acc cfg.name (aggregate_test_results latest trs))
        [] }

/-- The `read` statistics of the spec's example end-to-end document. -/
def exampleReadStats : RWStats :=
  ⟨some 100, none, some 800, some ⟨some 1000, some 5000, some 2000⟩,
    some ⟨some [("95.000000", 4000)]⟩⟩

/-- The `write` statistics of the spec's example end-to-end document. -/
def exampleWriteStats : RWStats :=
  ⟨some 50, none, some 400, some ⟨some 2000, some 6000, some 3000⟩,
    some ⟨some [("95.000000", 5000)]⟩⟩

/-- The spec's example benchmark document with a single job `j1`. -/
def exampleDoc : FioData :=
  ⟨none, some [⟨some "j1", some exampleReadStats, some exampleWriteStats, none, none⟩]⟩

/-- A job whose every field is absent. -/
def emptyJob : Job := ⟨none, none, none, none, none⟩

/-- A job-less benchmark document used for report-generation scenarios. -/
def doclessA : FioData := ⟨none, some []⟩

/-- A history of exactly three records whose test name is "A". -/
def historyAAA : List TestResult :=
  [process_fio_results "A" "T1" doclessA,
   process_fio_results "A" "T2" doclessA,
   process_fio_results "A" "T3" doclessA]

/-- Configurations naming tests "A" and "B". -/
def configsAB : List TestConfig := [⟨"A", []⟩, ⟨"B", []⟩]

/-- A benchmark document whose three jobs are named after the metadata keys
of a TestResult. -/
def metaJobsDoc : FioData :=
  ⟨none, some [⟨some "timestamp", none, none, none, none⟩,
               ⟨some "test_name", none, none, none, none⟩,
               ⟨some "global_options", none, none, none, none⟩]⟩

lemma save_results_nonempty (s : MonitorState) (r : TestResult)
    (h : r.isEmpty = false) :
    save_results s r = ⟨s.history ++ [r], some (s.history ++ [r])⟩ := by
  simp [save_results, save_history, h]

lemma isEmpty_false_of_ne_nil {r : TestResult} (h : r ≠ []) :
    r.isEmpty = false := by
  cases r with
  | nil => exact absurd rfl h
  | cons a l => rfl

lemma foldl_save_results_history (rs : List TestResult) :
    ∀ s : MonitorState, (∀ r ∈ rs, r ≠ []) →
      (rs.foldl save_results s).history = s.history ++ rs := by
  induction rs with
  | nil => intro s _; simp
  | cons r rest ih =>
    intro s h
    rw [List.foldl_cons,
      ih _ (fun x hx => h x (List.mem_cons_of_mem _ hx)),
      save_results_nonempty _ _ (isEmpty_false_of_ne_nil (h r (List.mem_cons_self _ _)))]
    simp

lemma foldl_save_results_file (rs : List TestResult) :
    ∀ s : MonitorState, (∀ r ∈ rs, r ≠ []) → rs ≠ [] →
      (rs.foldl save_results s).historyFile =
        some (rs.foldl save_results s).history := by
  induction rs with
  | nil => intro s _ h; exact absurd rfl h
  | cons r rest ih =>
    intro s h _
    rw [List.foldl_cons]
    by_cases hrest : rest = []
    · subst hrest
      simp only [List.foldl_nil]
      rw [save_results_nonempty _ _ (isEmpty_false_of_ne_nil (h r (List.mem_cons_self _ _)))]
    · exact ih _ (fun x hx => h x (List.mem_cons_of_mem _ hx)) hrest

/-- C1: appending each of N non-empty results through `save_results` yields
an in-memory history of exactly those N results in append order; after
every save of a non-empty result the on-disk history file equals the full
in-memory history; and reloading the file (as the analyzer does)
reproduces the same logical structure. -/
theorem save_results_persists_history (rs : List TestResult)
    (h : ∀ r ∈ rs, r ≠ []) :
    (rs.foldl save_results initialState).history = rs
    ∧ (∀ (s : MonitorState) (r : TestResult), r ≠ [] →
        (save_results s r).historyFile = some (save_results s r).history)
    ∧ (rs ≠ [] →
        load_history (rs.foldl save_results initialState).historyFile = rs) := by
  refine ⟨?_, ?_, ?_⟩
  · simpa [initialState] using foldl_save_results_history rs initialState h
  · intro s r hr
    rw [save_results_nonempty _ _ (isEmpty_false_of_ne_nil hr)]
  · intro hne
    rw [foldl_save_results_file rs initialState h hne, load_history]
    simpa [initialState] using foldl_save_results_history rs initialState h

/-- Witness for C1 at a concrete one-element history. -/
theorem save_results_persists_history_witness :
    ([[("test_name", ResultVal.str "A")]].foldl save_results initialState).history
      = [[("test_name", ResultVal.str "A")]]
    ∧ load_history
        ([[("test_name", ResultVal.str "A")]].foldl save_results initialState).historyFile
      = [[("test_name", ResultVal.str "A")]] := by
  have h := save_results_persists_history [[("test_name", ResultVal.str "A")]]
    (by intro r hr; simp only [List.mem_singleton] at hr; subst hr; simp)
  exact ⟨h.1, h.2.2 (by simp)⟩

/-- C2: the microsecond conversion is exactly nanoseconds divided by 1000,
independently for min, max and mean, an absent field being treated as 0;
exactness in the sense that multiplying back by 1000 restores the
nanosecond value. -/
theorem convert_latency_to_us_exact (d : LatNsDict) :
    (convert_latency_to_us d).min = d.min?.getD 0 / 1000
    ∧ (convert_latency_to_us d).max = d.max?.getD 0 / 1000
    ∧ (convert_latency_to_us d).mean = d.mean?.getD 0 / 1000
    ∧ (convert_latency_to_us d).min * 1000 = d.min?.getD 0
    ∧ (convert_latency_to_us d).max * 1000 = d.max?.getD 0
    ∧ (convert_latency_to_us d).mean * 1000 = d.mean?.getD 0
    ∧ convert_latency_to_us emptyLatNsDict = ⟨0, 0, 0⟩ := by
  refine ⟨rfl, rfl, rfl, ?_, ?_, ?_, by simp [convert_latency_to_us, emptyLatNsDict]⟩
  all_goals
    simp [convert_latency_to_us, div_mul_cancel₀]

/-- C3: the report's per-job p95 latency metrics are the value under the
literal percentile key "95.000000" divided by 1000, 0 when the key is
absent; on the spec's example document the extracted metrics show
read p95 of 4 and write p95 of 5 microseconds. -/
theorem extract_key_metrics_p95 :
    (∀ j : JobResult,
      (jobMetrics j).read_latency_us_p95
          = dictGetD j.read.percentiles "95.000000" 0 / 1000
      ∧ (jobMetrics j).write_latency_us_p95
          = dictGetD j.write.percentiles "95.000000" 0 / 1000)
    ∧ (jobMetrics (processJob emptyJob)).read_latency_us_p95 = 0
    ∧ (jobMetrics (processJob emptyJob)).write_latency_us_p95 = 0
    ∧ ((extract_key_metrics (process_fio_results "t1" "T0" exampleDoc)).map
        (fun kv => (kv.1, kv.2.read_latency_us_p95, kv.2.write_latency_us_p95)))
      = [("j1", 4, 5)] := by
  refine ⟨fun j => ⟨rfl, rfl⟩, ?_, ?_, ?_⟩
  · simp [jobMetrics, processJob, processSide, emptyJob, emptyRWStats,
      emptyClatNsDict, emptyLatNsDict, dictGetD, dictGet?]
  · simp [jobMetrics, processJob, processSide, emptyJob, emptyRWStats,
      emptyClatNsDict, emptyLatNsDict, dictGetD, dictGet?]
  · norm_num +decide [extract_key_metrics, process_fio_results, exampleDoc,
      exampleReadStats, exampleWriteStats, processJob, processSide, jobMetrics,
      dictInsert, dictGetD, dictGet?, metaKeys, convert_latency_to_us,
      List.filterMap_cons]

lemma build_fio_cmd_foldl (l : List (String × Scalar)) :
    ∀ acc : List String,
      l.foldl (fun cmd kv =>
        if kv.1 ≠ "name" then cmd ++ ["--" ++ kv.1, kv.2.toStr] else cmd) acc
      = acc ++ specFlagPairs l := by
  induction l with
  | nil => intro acc; simp [specFlagPairs]
  | cons kv rest ih =>
    intro acc
    rw [List.foldl_cons]
    show List.foldl _
        (if kv.1 ≠ "name" then acc ++ ["--" ++ kv.1, kv.2.toStr] else acc) rest
      = _
    by_cases h : kv.1 = "name"
    · rw [if_neg (fun hn => hn h), ih]
      simp only [specFlagPairs]
      rw [if_neg (fun hn => hn h)]
    · rw [if_pos h, ih]
      simp only [specFlagPairs]
      rw [if_pos h]
      simp

lemma specFlagPairs_length (l : List (String × Scalar)) :
    (specFlagPairs l).length
      = 2 * (l.filter fun kv => !(kv.1 == "name")).length := by
  induction l with
  | nil => simp [specFlagPairs]
  | cons kv rest ih =>
    simp only [specFlagPairs, List.filter_cons]
    by_cases h : kv.1 = "name"
    · have hb : (kv.1 == "name") = true := by simp [h]
      rw [if_neg (fun hn => hn h)]
      simp [hb, ih]
    · have hb : (kv.1 == "name") = false := by simp [h]
      rw [if_pos h]
      simp only [hb, Bool.not_false, if_true, List.length_cons, ih]
      omega

/-- C4: the command line starts with the tool name and `--name` followed by
the test name, then exactly one `--key value` pair per parameter whose key
is not "name", in the parameter list's iteration order. -/
theorem build_fio_cmd_shape (config : TestConfig) :
    build_fio_cmd config
      = "fio" :: "--name" :: config.name :: specFlagPairs config.parameters
    ∧ (specFlagPairs config.parameters).length
      = 2 * (config.parameters.filter fun kv => !(kv.1 == "name")).length := by
  exact ⟨build_fio_cmd_foldl config.parameters _, specFlagPairs_length _⟩

/-- C5: a malformed-JSON outcome makes the invoker return no result rather
than raise, and a cycle containing such a test produces exactly the state
of the cycle with that test removed: all remaining tests are processed. -/
theorem bad_json_yields_none_and_cycle_continues :
    (∀ test_name now, run_fio_test test_name now .badJson = none)
    ∧ (∀ (s : MonitorState) (now : String) (cfg : TestConfig)
        (pre post : List (TestConfig × FioRunOutcome)),
        run_cycle s now (pre ++ (cfg, .badJson) :: post)
          = run_cycle s now (pre ++ post)) := by
  refine ⟨fun _ _ => rfl, ?_⟩
  intro s now cfg pre post
  simp only [run_cycle, List.foldl_append, List.foldl_cons]
  rfl

/-- C6: over a history of exactly three records named "A" and none named
"B", the generated report's summary holds an entry for "A" with a run
count of 3 and no entry for "B". -/
theorem generate_report_runs_count :
    ((generate_report configsAB historyAAA).map
      (fun rep => ((dictGet? rep.summary "A").map TestSummary.runs_count,
                   dictGet? rep.summary "B")))
      = some (some 3, none) := by
  decide

/-- C7: normalization is total, and every absent field of a job's
statistics defaults to zero (an absent percentile table to the empty
mapping): stated per field, together with the full zero record produced
from an entirely absent statistics object. -/
theorem process_fio_results_defaults :
    (∀ s : RWStats,
      (s.iops? = none → (processSide s).iops = 0)
      ∧ (s.bw_bytes? = none → (processSide s).bw_bytes = 0)
      ∧ (s.bw_kbps? = none → (processSide s).bw_kbps = 0)
      ∧ (s.lat_ns? = none → (processSide s).latency_ns = ⟨0, 0, 0⟩
          ∧ (processSide s).latency_us = ⟨0, 0, 0⟩)
      ∧ (s.clat_ns? = none → (processSide s).percentiles = []))
    ∧ (∀ job : Job,
        (job.read? = none → (processJob job).read = processSide emptyRWStats)
        ∧ (job.write? = none → (processJob job).write = processSide emptyRWStats)
        ∧ (job.usr_cpu? = none → job.sys_cpu? = none → (processJob job).cpu = 0))
    ∧ processSide emptyRWStats = ⟨0, 0, 0, ⟨0, 0, 0⟩, [], ⟨0, 0, 0⟩⟩ := by
  refine ⟨fun s => ⟨?_, ?_, ?_, ?_, ?_⟩, fun job => ⟨?_, ?_, ?_⟩,
    by simp [processSide, emptyRWStats, emptyLatNsDict, emptyClatNsDict,
      convert_latency_to_us]⟩
  · intro h; simp [processSide, h]
  · intro h; simp [processSide, h]
  · intro h; simp [processSide, h]
  · intro h
    constructor <;> simp [processSide, convert_latency_to_us, h, emptyLatNsDict]
  · intro h; simp [processSide, h, emptyClatNsDict]
  · intro h; simp [processJob, h]
  · intro h; simp [processJob, h]
  · intro h h'; simp [processJob, h, h']

/-- Witness for C7 at the entirely absent job and statistics object. -/
theorem process_fio_results_defaults_witness :
    (processSide emptyRWStats).iops = 0
    ∧ (processSide emptyRWStats).percentiles = []
    ∧ (processJob emptyJob).cpu = 0 :=
  ⟨(process_fio_results_defaults.1 emptyRWStats).1 rfl,
   (process_fio_results_defaults.1 emptyRWStats).2.2.2.2 rfl,
   (process_fio_results_defaults.2.1 emptyJob).2.2 rfl rfl⟩

/-- C8: a job-less document (empty or absent `jobs` list) normalizes to
exactly the three fixed metadata entries and nothing else. -/
theorem process_fio_results_jobless (test_name now : String)
    (g : Option (List (String × String))) :
    process_fio_results test_name now ⟨g, some []⟩
      = [("timestamp", .str now), ("test_name", .str test_name),
         ("global_options", .opts (g.getD []))]
    ∧ process_fio_results test_name now ⟨g, none⟩
      = [("timestamp", .str now), ("test_name", .str test_name),
         ("global_options", .opts (g.getD []))] :=
  ⟨rfl, rfl⟩

/-- C9: when the configuration holds an integer `runtime` parameter, the
subprocess timeout is that runtime plus a 30-second grace margin. -/
theorem fio_timeout_runtime_plus_30 (parameters : List (String × Scalar))
    (n : Int) (h : dictGet? parameters "runtime" = some (.int n)) :
    fio_timeout parameters = some (n + 30) := by
  simp [fio_timeout, dictGetD, h]

/-- Witness for C9 at the default configuration's runtime of 120. -/
theorem fio_timeout_runtime_plus_30_witness :
    fio_timeout [("runtime", Scalar.int 120)] = some (120 + 30) :=
  fio_timeout_runtime_plus_30 [("runtime", Scalar.int 120)] 120 rfl

lemma extract_key_metrics_skips_meta (result : TestResult) :
    (extract_key_metrics result).all (fun p => !(metaKeys.contains p.1)) = true := by
  rw [List.all_eq_true]
  intro p hp
  simp only [extract_key_metrics, List.mem_filterMap] at hp
  obtain ⟨kv, _, hf⟩ := hp
  by_cases hm : kv.1 ∈ metaKeys
  · simp [hm] at hf
  · rw [if_neg hm] at hf
    cases hv : kv.2 <;> rw [hv] at hf <;> simp at hf
    subst hf
    simp [hm]

lemma timeseries_rows_of_skips_meta (result : TestResult) :
    (timeseries_rows_of result).all (fun p => !(metaKeys.contains p.1)) = true := by
  rw [List.all_eq_true]
  intro p hp
  simp only [timeseries_rows_of, List.mem_filterMap] at hp
  obtain ⟨kv, _, hf⟩ := hp
  by_cases hm : kv.1 ∈ metaKeys
  · simp [hm] at hf
  · rw [if_neg hm] at hf
    cases hv : kv.2 <;> rw [hv] at hf <;> simp at hf
    subst hf
    simp [hm]

/-- C10: job records live in the same key namespace as the metadata: a job
named "timestamp", "test_name" or "global_options" overwrites that
metadata entry in place, and both the report's metric extraction and the
analyzer's row extraction skip every key bearing one of those three
names. -/
theorem job_name_shares_metadata_namespace :
    (∀ result : TestResult,
      (extract_key_metrics result).all (fun p => !(metaKeys.contains p.1)) = true
      ∧ (timeseries_rows_of result).all (fun p => !(metaKeys.contains p.1)) = true)
    ∧ process_fio_results "t" "T0" metaJobsDoc
        = [("timestamp", .job (processJob emptyJob)),
           ("test_name", .job (processJob emptyJob)),
           ("global_options", .job (processJob emptyJob))]
    ∧ extract_key_metrics (process_fio_results "t" "T0" metaJobsDoc) = []
    ∧ timeseries_rows_of (process_fio_results "t" "T0" metaJobsDoc) = [] := by
  refine ⟨fun result =>
    ⟨extract_key_metrics_skips_meta result, timeseries_rows_of_skips_meta result⟩,
    ?_, ?_, ?_⟩
  · simp [process_fio_results, metaJobsDoc, dictInsert, processJob, processSide,
      emptyJob, emptyRWStats, emptyLatNsDict, emptyClatNsDict,
      convert_latency_to_us]
  · simp [extract_key_metrics, process_fio_results, metaJobsDoc, dictInsert,
      metaKeys]
  · simp [timeseries_rows_of, process_fio_results, metaJobsDoc, dictInsert,
      metaKeys]

end FioMonitor
